import Mathlib

/-!
Verification of `expyfun._experiment_controller.ExperimentController`.

This file is a shallow embedding of the timing-and-calibration engine of the
experiment controller: the flip-synchronized callback scheduler (`flip`,
`flip_and_play`, `call_on_next_flip`, `call_on_every_flip`), the audio buffer
validation pipeline (`_validate_audio` and the helpers it uses), the gain
calibrator (`_update_sound_scaler`, `_get_dev_db`, `set_noise_db`), the clock
reconciler (`_get_time_correction`), the waiting primitive (`wait_until`) and
teardown (`__exit__`).

Python floats are modelled as exact arithmetic: sample values, sample rates
and clock readings are rationals (so that everything outside the RMS
comparison is executable), and the square roots and powers of the RMS check
and of the calibrator live in `ℝ`.
-/

namespace Expyfun

/-! ### Flip scheduler

State of the callback queues (`self._on_next_flip`, `self._on_every_flip`).
A callback is either the "start audio playback" bound method `self._play`
or an arbitrary user callback (identified by a tag). -/

inductive CB where
  | play : CB
  | user : Nat → CB
deriving DecidableEq, Repr

structure ECState where
  onNext : List CB
  onEvery : List CB
deriving DecidableEq, Repr

/-- Observable events of one `flip()` call, in execution order: the confirmed
display swap (`self._win.flip()` followed by the `glFinish` barrier), each
callback invocation, the frame-buffer clear, and the data-file log line. -/
inductive FlipEvent where
  | swap : FlipEvent
  | call : CB → FlipEvent
  | clearBuffer : FlipEvent
  | logFlip : FlipEvent
deriving DecidableEq, Repr

/-- Model of `ExperimentController.flip` (lines 617-651).  The call list is captured as
`self._on_next_flip + self._on_every_flip` on entry; the swap is issued and
synchronized; the callbacks then run in list order; the frame buffer is
cleared, the flip is logged, and `self._on_next_flip` is reset to `[]`. -/
def flip (s : ECState) : List FlipEvent × ECState :=
  let callList := s.onNext ++ s.onEvery
  (FlipEvent.swap :: (callList.map FlipEvent.call ++
      [FlipEvent.clearBuffer, FlipEvent.logFlip]),
   { s with onNext := [] })

/-- Model of `ExperimentController.flip_and_play` (lines 437-455): prepends
`self._play` to `self._on_next_flip` so it comes first, then flips. -/
def flip_and_play (s : ECState) : List FlipEvent × ECState :=
  flip { s with onNext := CB.play :: s.onNext }

/-- Model of `ExperimentController.call_on_next_flip` (lines 457-483): a function is
appended to `self._on_next_flip`; passing `None` clears that list. -/
def call_on_next_flip (s : ECState) (f : Option CB) : ECState :=
  match f with
  | some c => { s with onNext := s.onNext ++ [c] }
  | none => { s with onNext := [] }

/-- Model of `ExperimentController.call_on_every_flip` (lines 485-511): a function is
appended to `self._on_every_flip`; passing `None` clears that list. -/
def call_on_every_flip (s : ECState) (f : Option CB) : ECState :=
  match f with
  | some c => { s with onEvery := s.onEvery ++ [c] }
  | none => { s with onEvery := [] }

/-! ### Audio buffer validation

`_validate_audio` (lines 856-928) receives a numpy array of dimension 1 or 2
(arrays of dimension > 2 are rejected by the source and are not representable
here), with rational sample values.  Sample rates are rationals; the
`scipy.signal.resample` routine is an external collaborator and enters the
model as a function field of the configuration, constrained where needed by
the hypothesis that it returns exactly the requested number of samples. -/

inductive RmsKind where
  | wholefile : RmsKind
  | windowed : RmsKind
deriving DecidableEq, Repr

/-- The controller state consulted by `_validate_audio`: `self.stim_fs`,
`self.fs` (device rate), `self._suppress_resamp`, `self._check_rms`,
`self._stim_rms`, and the resampler `scipy.signal.resample` (modelled as the
function `rsmp`, taking the data and the requested output length). -/
structure AudioConfig where
  stim_fs : ℚ
  fs : ℚ
  suppress_resamp : Bool
  check_rms : Option RmsKind
  stim_rms : ℚ
  rsmp : List ℚ → Nat → List ℚ

/-- A numpy array of dimension 1 (`one`) or 2 (`two`, a list of rows). -/
inductive NPArray where
  | one : List ℚ → NPArray
  | two : List (List ℚ) → NPArray
deriving DecidableEq, Repr

/-- All sample values of an array, row-major. -/
def elems : NPArray → List ℚ
  | .one xs => xs
  | .two rows => rows.flatten

/-- Model of `np.max(np.abs(samples))` over a flat list (0 for the empty list; the
empty case is guarded separately because `np.max` raises on empty input). -/
def maxAbs (xs : List ℚ) : ℚ :=
  xs.foldr (fun x m => max |x| m) 0

/-- Transpose of a rectangular list of rows (`samples.T`). -/
def transpose : List (List ℚ) → List (List ℚ)
  | [] => []
  | [r] => r.map fun a => [a]
  | r :: s :: rs => List.zipWith (fun a l => a :: l) r (transpose (s :: rs))

/-- Number of rows (`samples.shape[0]`). -/
def nrowsOf (rows : List (List ℚ)) : Nat := rows.length

/-- Number of columns (`samples.shape[1]`) of a rectangular array. -/
def ncolsOf (rows : List (List ℚ)) : Nat := (rows.headD []).length

inductive AudioError where
  | emptyData : AudioError
  | outOfRange : AudioError
  | badShape : AudioError
  | levelExceeded : AudioError
deriving DecidableEq, Repr

inductive AudioWarning where
  | resampling : AudioWarning
  | lowRms : AudioWarning
  | highRms : AudioWarning
deriving DecidableEq, Repr

instance exceptDecEq {ε α : Type} [DecidableEq ε] [DecidableEq α] :
    DecidableEq (Except ε α) := fun x y =>
  match x, y with
  | .ok a, .ok b =>
    if h : a = b then isTrue (by rw [h]) else isFalse (by simp [h])
  | .error e, .error f =>
    if h : e = f then isTrue (by rw [h]) else isFalse (by simp [h])
  | .ok _, .error _ => isFalse (by simp)
  | .error _, .ok _ => isFalse (by simp)

/-- The dimensionality/shape step of `_validate_audio` (lines 880-888):
reject a 2-d array whose smaller dimension exceeds 2 (more than two
channels), and transpose a 2-d array whose first dimension is at most 2. -/
def shapeCheck : NPArray → Except AudioError NPArray
  | .one xs => .ok (.one xs)
  | .two rows =>
    if 2 < min (nrowsOf rows) (ncolsOf rows) then .error .badShape
    else if nrowsOf rows ≤ 2 then .ok (.two (transpose rows))
    else .ok (.two rows)

/-- Model of `self._fs_mismatch` (lines 1149-1153):
`not np.allclose(self.stim_fs, self.fs, rtol=0, atol=0.5)`. -/
def fs_mismatch (c : AudioConfig) : Bool :=
  decide (¬ |c.stim_fs - c.fs| ≤ 1 / 2)

/-- Python `int()` applied to an exact rational: truncation toward zero. -/
def pyInt (q : ℚ) : ℤ := Int.tdiv q.num q.den

/-- The resampling target length (line 894):
`int(len(samples) * self.fs / float(self.stim_fs))`. -/
def resampCount (c : AudioConfig) (len : Nat) : Nat :=
  (pyInt ((len : ℚ) * c.fs / c.stim_fs)).toNat

/-- The resampling step (lines 894-895):
`resample(samples, int(num_samples), window='boxcar')`.  For a 2-d array
scipy resamples along axis 0, i.e. column by column. -/
def resampleCore (c : AudioConfig) : NPArray → NPArray
  | .one xs => .one (c.rsmp xs (resampCount c xs.length))
  | .two rows =>
      .two (transpose ((transpose rows).map
        fun col => c.rsmp col (resampCount c (nrowsOf rows))))

/-- One canonical stereo frame. -/
abbrev Frame := ℚ × ℚ

/-- The first two entries of a row; at the broadcast step every remaining
2-d array is rectangular with exactly two columns. -/
def rowPair (r : List ℚ) : Frame := (r.headD 0, (r.drop 1).headD 0)

/-- The stereo broadcast step (lines 897-902): a 1-d array is duplicated into
two identical channels; a 2-d array with a dimension equal to 1 is raveled
(row-major) and then duplicated; otherwise the rows are already frames. -/
def makeStereo : NPArray → List Frame
  | .one xs => xs.map fun x => (x, x)
  | .two rows =>
    if nrowsOf rows = 1 ∨ ncolsOf rows = 1 then
      rows.flatten.map fun x => (x, x)
    else rows.map rowPair

/-- Model of `np.mean(x ** 2)` over a channel. -/
def meanSq (xs : List ℚ) : ℚ := (xs.map fun x => x ^ 2).sum / xs.length

/-- Model of `np.sqrt(np.mean(x ** 2))` (line 908). -/
noncomputable def rmsOf (xs : List ℚ) : ℝ := Real.sqrt ((meanSq xs : ℚ) : ℝ)

/-- All length-`w` sliding windows of a list. -/
def slidingWindows (xs : List ℚ) (w : Nat) : List (List ℚ) :=
  (List.range (xs.length + 1 - w)).map fun i => (xs.drop i).take w

/-- Modelled from the spec: `running_rms` (defined in `expyfun._utils`, which
is not part of the sources) — per the spec's RMS policy, the RMS over each
sliding 10 ms window of a channel. -/
noncomputable def running_rms (xs : List ℚ) (w : Nat) : List ℝ :=
  (slidingWindows xs w).map rmsOf

/-- Maximum of a list of reals (`0` for the empty list). -/
noncomputable def listMax (xs : List ℝ) : ℝ := xs.foldr max 0

/-- The worst-case per-channel RMS of the canonical frames, per the active
checking mode (lines 905-913): whole-file RMS per channel, or the maximum
windowed RMS with a window of `int(self.fs * 0.01)` samples. -/
noncomputable def maxRms (c : AudioConfig) (frames : List Frame) : ℝ :=
  match c.check_rms with
  | none => 0
  | some .wholefile =>
      max (rmsOf (frames.map Prod.fst)) (rmsOf (frames.map Prod.snd))
  | some .windowed =>
      let w := (pyInt (c.fs * (1 / 100))).toNat
      max (listMax (running_rms (frames.map Prod.fst) w))
          (listMax (running_rms (frames.map Prod.snd) w))

/-- The RMS check (lines 904-924): above `2 * self._stim_rms` the validation
warns and raises; below `0.5 * self._stim_rms` it only warns. -/
noncomputable def rmsStage (c : AudioConfig) (frames : List Frame) :
    Except AudioError (List AudioWarning) :=
  match c.check_rms with
  | none => .ok []
  | some _ =>
    if 2 * (c.stim_rms : ℝ) < maxRms c frames then .error .levelExceeded
    else if maxRms c frames < 0.5 * (c.stim_rms : ℝ) then .ok [.lowRms]
    else .ok []

/-- Everything `_validate_audio` does before the RMS check, yielding the
canonical frames together with the warnings reported so far: the value check
(lines 875-878; `np.max` raises on an empty array), the shape step, the
conditional resampling (lines 890-895, reporting the action), and the stereo
broadcast. -/
def preRms (c : AudioConfig) (a : NPArray) :
    Except AudioError (List Frame × List AudioWarning) :=
  if (elems a).length = 0 then .error .emptyData
  else if 1 < maxAbs (elems a) then .error .outOfRange
  else
    match shapeCheck a with
    | .error e => .error e
    | .ok a1 =>
      let doRs := fs_mismatch c && !c.suppress_resamp
      let a2 := if doRs then resampleCore c a1 else a1
      .ok (makeStereo a2, if doRs then [.resampling] else [])

/-- Model of `_validate_audio` (lines 856-928): the pre-RMS pipeline, the RMS check,
and the prepended `[0.0, 0.0]` lead-in frame (line 927).  Returns the
validation outcome together with the reported warnings. -/
noncomputable def validate_audio (c : AudioConfig) (a : NPArray) :
    Except AudioError (List Frame) × List AudioWarning :=
  match preRms c a with
  | .error e => (.error e, [])
  | .ok (frames, ws) =>
    match rmsStage c frames with
    | .error e => (.error e, ws ++ [.highRms])
    | .ok ws2 => (.ok ((0, 0) :: frames), ws ++ ws2)

/-- The number of time samples the data has when it reaches the stereo
broadcast step: the resampled length under an active resample, the input
length otherwise. -/
def broadcastLen (c : AudioConfig) (len : Nat) : Nat :=
  if fs_mismatch c && !c.suppress_resamp then resampCount c len else len

/-- Length of the leading axis of an array. -/
def arrLen : NPArray → Nat
  | .one xs => xs.length
  | .two rows => rows.length

/-! ### Audio calibrator -/

/-- Model of `_get_dev_db` (lines 1166-1181): the reference dB SPL produced by a
full-scale signal on each device class, with a conservative default (and a
reported warning) for unrecognized devices. -/
def get_dev_db (audio_type : String) : ℝ :=
  if audio_type = "RM1" then 108
  else if audio_type = "RP2" then 108
  else if audio_type = "RZ6" then 114
  else if audio_type = "pyo" ∨ audio_type = "psychopy" then 90
  else 90

/-- Model of `_update_sound_scaler` (lines 850-854):
`10 ** (-(_get_dev_db(self._audio_type) - desired_db) / 20.0) / float(orig_rms)`. -/
noncomputable def update_sound_scaler (audio_type : String)
    (desired_db orig_rms : ℝ) : ℝ :=
  (10 : ℝ) ^ (-(get_dev_db audio_type - desired_db) / 20) / orig_rms

/-- The gain handed to the noise stream by `set_noise_db` (lines 836-841):
`self._update_sound_scaler(new_db, 1.0)` — noise is generated at RMS 1. -/
noncomputable def noise_gain (audio_type : String) (new_db : ℝ) : ℝ :=
  update_sound_scaler audio_type new_db 1

/-! ### Clock reconciliation -/

/-- Model of `self._time_corrections`: the per-clock frozen baselines. -/
def Corrections := String → Option ℚ

/-- Model of `_get_time_correction` (lines 975-992).  Inputs: the stored baselines and
the two clock readings taken on this call (`self._master_clock()` and the
auxiliary clock function's value).  Outputs: the returned fresh correction,
the updated baseline table, and whether the drift warning
(`np.abs(diff) > 10e-6`) was reported. -/
def get_time_correction (stored : Corrections) (clockType : String)
    (master aux : ℚ) : ℚ × Corrections × Bool :=
  let tc := master - aux
  let stored' : Corrections :=
    match stored clockType with
    | none => fun c => if c = clockType then some tc else stored c
    | some _ => stored
  let baseline := match stored' clockType with
    | some b => b
    | none => tc
  (tc, stored', decide (1 / 100000 < |tc - baseline|))

/-- A sequence of reconciliation calls, each with its clock id and the two
clock readings taken during that call. -/
def runCalls (stored : Corrections) : List (String × ℚ × ℚ) → Corrections
  | [] => stored
  | (ct, m, a) :: rest => runCalls (get_time_correction stored ct m a).2.1 rest

/-! ### wait_until -/

/-- Model of `wait_until` (lines 1010-1039), as a function of the master-clock reading
at the moment of the call.  Returns the returned value `time_left`, the
duration actually slept via `wait_secs`, and whether the already-passed
warning was reported. -/
def wait_until (now timestamp : ℚ) : ℚ × ℚ × Bool :=
  let timeLeft := timestamp - now
  if timeLeft < 0 then (timeLeft, 0, true) else (timeLeft, timeLeft, false)

/-! ### Teardown (`__exit__`) -/

section Teardown

variable {W E X : Type}

/-- The cleanup loop of `__exit__` (lines 1094-1099): each action is a state
transformer that may raise; a raised exception is printed (collected) and the
loop continues with the next action. -/
def cleanupLoop : List (W → W × Option E) → W → W × List E
  | [], w => (w, [])
  | a :: rest, w =>
    let r := a w
    let res := cleanupLoop rest r.1
    (res.1, match r.2 with
            | none => res.2
            | some e => e :: res.2)

/-- The controller pieces torn down by `__exit__`. -/
structure TeardownCtx (W E : Type) where
  stop_noise : W → W × Option E
  stop : W → W × Option E
  halt : W → W × Option E
  win_close : W → W × Option E
  data_file_close : Option (W → W × Option E)
  extra_cleanup : List (W → W × Option E)

/-- The cleanup action list of `__exit__` (lines 1089-1093):
`[self.stop_noise, self.stop, self._ac.halt, self._win.close]`, plus
`self._data_file.close` when a data file is open, plus
`self._extra_cleanup_fun`. -/
def cleanupActions (t : TeardownCtx W E) : List (W → W × Option E) :=
  [t.stop_noise, t.stop, t.halt, t.win_close] ++
    (match t.data_file_close with
     | some f => [f]
     | none => []) ++
    t.extra_cleanup

/-- Model of `__exit__` (lines 1080-1116): run every cleanup action under the
per-action exception guard, then re-raise the original exception (if the
close was triggered by one) last.  Returns the final state, the collected
(printed) cleanup failures, and the re-raised exception. -/
def ec_exit (t : TeardownCtx W E) (w : W) (orig : Option X) :
    (W × List E) × Option X :=
  (cleanupLoop (cleanupActions t) w, orig)

end Teardown

/-! ### Concrete instances used by witnesses and counterexamples -/

/-- A concrete stand-in resampler satisfying the length contract. -/
def rsmpZeros : List ℚ → Nat → List ℚ := fun _ n => List.replicate n 0

/-- A configuration with matching rates and RMS checking disabled. -/
def cfg0 : AudioConfig :=
  { stim_fs := 44100, fs := 44100, suppress_resamp := false,
    check_rms := none, stim_rms := 1 / 100, rsmp := rsmpZeros }

/-- A configuration with a genuine rate mismatch (stim 2 Hz, device 3 Hz). -/
def cfgMis : AudioConfig :=
  { stim_fs := 2, fs := 3, suppress_resamp := false,
    check_rms := none, stim_rms := 1 / 100, rsmp := rsmpZeros }

/-- A configuration whose rates differ by 0.3 Hz (below the 0.5 tolerance). -/
def cfgNear : AudioConfig :=
  { stim_fs := 44100, fs := 441003 / 10, suppress_resamp := false,
    check_rms := none, stim_rms := 1 / 100, rsmp := rsmpZeros }

/-- A configuration with whole-file RMS checking against stated RMS 0.01. -/
def cfgRms : AudioConfig :=
  { stim_fs := 44100, fs := 44100, suppress_resamp := false,
    check_rms := some .wholefile, stim_rms := 1 / 100, rsmp := rsmpZeros }

/-- C1: For every state of the callback queues, `flip_and_play` runs, after
the display swap, the queued "start audio" action first, then the `next_flip`
callbacks in registration order, then the `every_flip` callbacks in
registration order; a plain `flip` runs `next_flip` then `every_flip`.  In
particular no `every_flip` callback ever runs before a `next_flip` one. -/
theorem claim_C1_flip_order (s : ECState) :
    (flip_and_play s).1 =
      FlipEvent.swap :: FlipEvent.call CB.play ::
        (s.onNext.map FlipEvent.call ++ s.onEvery.map FlipEvent.call ++
          [FlipEvent.clearBuffer, FlipEvent.logFlip]) ∧
    (flip s).1 =
      FlipEvent.swap ::
        (s.onNext.map FlipEvent.call ++ s.onEvery.map FlipEvent.call ++
          [FlipEvent.clearBuffer, FlipEvent.logFlip]) := by
  constructor <;> simp [flip, flip_and_play]

/-- C7: a successful `flip` (also via `flip_and_play`) leaves `every_flip`
untouched and empties `next_flip`; registering (or clearing) via
`call_on_next_flip` never modifies `every_flip`, and vice versa. -/
theorem claim_C7_queue_consumption (s : ECState) (f : Option CB) :
    (flip s).2.onNext = [] ∧ (flip s).2.onEvery = s.onEvery ∧
    (flip_and_play s).2.onNext = [] ∧ (flip_and_play s).2.onEvery = s.onEvery ∧
    (call_on_next_flip s f).onEvery = s.onEvery ∧
    (call_on_every_flip s f).onNext = s.onNext := by
  refine ⟨rfl, rfl, rfl, rfl, ?_, ?_⟩ <;> cases f <;> rfl

/-- C10: `wait_until` always returns `timestamp` minus the master-clock time
at the moment of the call; when that difference is negative it sleeps not at
all and reports the already-passed warning, otherwise it sleeps exactly the
difference and does not warn. -/
theorem claim_C10_wait_until (now timestamp : ℚ) :
    (wait_until now timestamp).1 = timestamp - now ∧
    (timestamp - now < 0 →
      wait_until now timestamp = (timestamp - now, 0, true)) ∧
    (0 ≤ timestamp - now →
      wait_until now timestamp = (timestamp - now, timestamp - now, false)) := by
  refine ⟨?_, fun h => ?_, fun h => ?_⟩
  · simp only [wait_until]
    split <;> rfl
  · simp only [wait_until, if_pos h]
  · simp only [wait_until, if_neg (not_lt.mpr h)]

theorem claim_C10_witness :
    wait_until 5 3 = (3 - 5, 0, true) ∧
    wait_until 0 2 = (2 - 0, 2 - 0, false) :=
  ⟨(claim_C10_wait_until 5 3).2.1 (by norm_num),
   (claim_C10_wait_until 0 2).2.2 (by norm_num)⟩

/-- Once a baseline is frozen for a clock id, no later sequence of
reconciliation calls (for any clock ids) changes it. -/
theorem runCalls_frozen (calls : List (String × ℚ × ℚ)) :
    ∀ (stored : Corrections) (ct : String) (b : ℚ), stored ct = some b →
      runCalls stored calls ct = some b := by
  induction calls with
  | nil => intro stored ct b hb; simpa [runCalls] using hb
  | cons hd tl ih =>
    intro stored ct b hb
    obtain ⟨ct', m', a'⟩ := hd
    simp only [runCalls]
    apply ih
    simp only [get_time_correction]
    cases h : stored ct' with
    | none =>
      by_cases hc : ct = ct'
      · rw [hc, h] at hb; cases hb
      · simp [hc, hb]
    | some x => simpa using hb

/-- C5: the correction baseline is set exactly once (on the first call for a
clock id) and never overwritten afterwards; every call returns the freshly
measured offset `master - aux`; the drift warning is reported (as a flag, not
an error) exactly when the fresh offset differs from the frozen baseline by
more than 10 microseconds. -/
theorem claim_C5_time_correction (stored : Corrections) (ct : String)
    (m a : ℚ) :
    (get_time_correction stored ct m a).1 = m - a ∧
    (∀ b, stored ct = some b →
      (get_time_correction stored ct m a).2.1 = stored ∧
      ((get_time_correction stored ct m a).2.2 = true ↔
        1 / 100000 < |m - a - b|)) ∧
    (stored ct = none →
      (get_time_correction stored ct m a).2.1 ct = some (m - a) ∧
      (∀ c, c ≠ ct → (get_time_correction stored ct m a).2.1 c = stored c) ∧
      (get_time_correction stored ct m a).2.2 = false) ∧
    (∀ b calls, stored ct = some b → runCalls stored calls ct = some b) := by
  refine ⟨rfl, fun b hb => ?_, fun h => ?_, fun b calls hb =>
    runCalls_frozen calls stored ct b hb⟩
  · refine ⟨?_, ?_⟩ <;> simp [get_time_correction, hb]
  · simp only [get_time_correction, h]
    refine ⟨by simp, fun c hc => by simp [hc], by simp⟩

theorem claim_C5_witness :
    (get_time_correction (fun _ => some 2) "ppc" 10 3).1 = 10 - 3 ∧
    ((get_time_correction (fun _ => some 2) "ppc" 10 3).2.2 = true ↔
      (1 : ℚ) / 100000 < |10 - 3 - 2|) ∧
    runCalls (fun _ => some 2) [("ppc", 5, 1), ("x", 7, 2)] "ppc" = some 2 :=
  ⟨(claim_C5_time_correction (fun _ => some 2) "ppc" 10 3).1,
   ((claim_C5_time_correction (fun _ => some 2) "ppc" 10 3).2.1 2 rfl).2,
   (claim_C5_time_correction (fun _ => some 2) "ppc" 5 1).2.2.2 2
     [("ppc", 5, 1), ("x", 7, 2)] rfl⟩

/-- C9: teardown threads the state through every cleanup action in sequence
regardless of which actions raise (a raised exception is collected and the
loop continues), and the original exception, when the close was triggered by
one, is re-raised last, after all cleanup attempts. -/
theorem claim_C9_teardown {W E X : Type} (t : TeardownCtx W E) (w : W)
    (orig : Option X) :
    (ec_exit t w orig).1.1 =
      (cleanupActions t).foldl (fun st act => (act st).1) w ∧
    (ec_exit t w orig).2 = orig := by
  constructor
  · show (cleanupLoop (cleanupActions t) w).1 = _
    generalize cleanupActions t = acts
    induction acts generalizing w with
    | nil => rfl
    | cons act rest ih => simp only [cleanupLoop, List.foldl, ih]
  · rfl

/-- C3: the calibrator gain satisfies
`20 * log10(gain * source_rms) = target_db - reference_db` for every device
class, target level and positive stated source RMS; it equals the closed
form `10 ^ (-(reference_db - target_db) / 20) / source_rms`, and the
background-noise gain is the same function at RMS 1. -/
theorem claim_C3_gain (audio_type : String) (target_db src_rms : ℝ)
    (h : 0 < src_rms) :
    20 * Real.logb 10
        (update_sound_scaler audio_type target_db src_rms * src_rms) =
      target_db - get_dev_db audio_type ∧
    update_sound_scaler audio_type target_db src_rms =
      (10 : ℝ) ^ (-(get_dev_db audio_type - target_db) / 20) / src_rms ∧
    noise_gain audio_type target_db =
      update_sound_scaler audio_type target_db 1 := by
  refine ⟨?_, rfl, rfl⟩
  rw [update_sound_scaler, div_mul_cancel₀ _ (ne_of_gt h),
    Real.logb_rpow (by norm_num) (by norm_num)]
  ring

theorem claim_C3_witness :
    (0 : ℝ) < 1 ∧
    20 * Real.logb 10 (update_sound_scaler "pyo" 65 1 * 1) =
      65 - get_dev_db "pyo" :=
  ⟨one_pos, (claim_C3_gain "pyo" 65 1 one_pos).1⟩

/-- Every sample magnitude is bounded by `maxAbs`. -/
theorem le_maxAbs {x : ℚ} {xs : List ℚ} (hx : x ∈ xs) : |x| ≤ maxAbs xs := by
  induction xs with
  | nil => cases hx
  | cons a t ih =>
    rcases List.mem_cons.mp hx with rfl | h
    · exact le_max_left _ _
    · exact le_trans (ih h) (le_max_right _ _)

/-- A list containing a sample of magnitude above 1 is not empty. -/
theorem maxAbs_pos_ne_nil {xs : List ℚ} (h : 1 < maxAbs xs) :
    xs.length ≠ 0 := by
  intro h0
  rw [List.length_eq_zero.mp h0] at h
  norm_num [maxAbs] at h

/-- An out-of-range sample makes the pre-RMS pipeline fail with the range
error, before any shape handling, resampling or broadcasting. -/
theorem preRms_oor (c : AudioConfig) {a : NPArray}
    (h : 1 < maxAbs (elems a)) : preRms c a = .error .outOfRange := by
  simp only [preRms, if_neg (maxAbs_pos_ne_nil h), if_pos h]

/-- C6: an input whose maximum absolute sample exceeds 1 makes validation
fail with the range error immediately (no resampling is reported, no buffer
is produced), and a buffer is only ever returned when every input sample has
magnitude at most 1. -/
theorem claim_C6_range_check (c : AudioConfig) (a : NPArray) :
    (1 < maxAbs (elems a) →
      validate_audio c a = (.error .outOfRange, [])) ∧
    (∀ buf ws, validate_audio c a = (.ok buf, ws) →
      ∀ s ∈ elems a, |s| ≤ 1) := by
  constructor
  · intro h
    simp [validate_audio, preRms_oor c h]
  · intro buf ws hok s hs
    by_contra hgt
    push_neg at hgt
    have h1 : 1 < maxAbs (elems a) := lt_of_lt_of_le hgt (le_maxAbs hs)
    rw [validate_audio, preRms_oor c h1] at hok
    cases hok

theorem claim_C6_witness :
    validate_audio cfg0 (.one [2]) = (.error .outOfRange, []) ∧
    ∀ s ∈ elems (.one ([1] : List ℚ)), |s| ≤ 1 := by
  constructor
  · exact (claim_C6_range_check cfg0 (.one [2])).1 (by norm_num [maxAbs, elems])
  · refine (claim_C6_range_check cfg0 (.one [1])).2 [(0, 0), (1, 1)] [] ?_
    norm_num [validate_audio, preRms, elems, maxAbs, shapeCheck, fs_mismatch,
      cfg0, makeStereo, rmsStage]

/-- The fold computing `listMax` never goes below 0. -/
theorem listMax_nonneg (xs : List ℝ) : 0 ≤ listMax xs := by
  induction xs with
  | nil => exact le_refl 0
  | cons a t ih => exact le_trans ih (le_max_right _ _)

/-- The worst-case per-channel RMS is nonnegative in every checking mode. -/
theorem maxRms_nonneg (c : AudioConfig) (frames : List Frame) :
    0 ≤ maxRms c frames := by
  cases hc : c.check_rms with
  | none => simp [maxRms, hc]
  | some k =>
    cases k with
    | wholefile =>
      simp only [maxRms, hc]
      exact le_trans (Real.sqrt_nonneg _) (le_max_left _ _)
    | windowed =>
      simp only [maxRms, hc]
      exact le_trans (listMax_nonneg _) (le_max_left _ _)

/-- C4: with RMS checking active (whole-file or windowed), a buffer whose
worst-case per-channel RMS exceeds twice the stated stimulus RMS makes
validation raise the hard level error (no buffer is returned), while a
buffer whose worst-case RMS is below half the stated RMS is only reported
as a warning and the canonical buffer is still returned — the asymmetry is
preserved. -/
theorem claim_C4_rms_asymmetry (c : AudioConfig) (a : NPArray)
    (frames : List Frame) (ws : List AudioWarning) :
    (c.check_rms ≠ none → preRms c a = .ok (frames, ws) →
      2 * (c.stim_rms : ℝ) < maxRms c frames →
      validate_audio c a = (.error .levelExceeded, ws ++ [.highRms])) ∧
    (c.check_rms ≠ none → preRms c a = .ok (frames, ws) →
      maxRms c frames < 0.5 * (c.stim_rms : ℝ) →
      validate_audio c a = (.ok ((0, 0) :: frames), ws ++ [.lowRms])) := by
  constructor
  · intro hc hpre hgt
    obtain ⟨k, hk⟩ := Option.ne_none_iff_exists'.mp hc
    simp only [validate_audio, hpre, rmsStage, hk, if_pos hgt]
  · intro hc hpre hlt
    obtain ⟨k, hk⟩ := Option.ne_none_iff_exists'.mp hc
    have h0 : (0 : ℝ) ≤ maxRms c frames := maxRms_nonneg c frames
    have hn : ¬ 2 * (c.stim_rms : ℝ) < maxRms c frames := by
      push_neg
      linarith
    simp only [validate_audio, hpre, rmsStage, hk, if_neg hn, if_pos hlt]

theorem claim_C4_witness :
    validate_audio cfgRms (.one [1, 1]) =
      (.error .levelExceeded, [.highRms]) ∧
    validate_audio cfgRms (.one [0, 0]) =
      (.ok [(0, 0), (0, 0), (0, 0)], [.lowRms]) := by
  have hover : 2 * ((1 : ℚ) / 100 : ℝ) < maxRms cfgRms [(1, 1), (1, 1)] := by
    have h : maxRms cfgRms [(1, 1), (1, 1)] = 1 := by
      simp [maxRms, cfgRms, rmsOf, meanSq]
    rw [h]
    norm_num
  have hunder : maxRms cfgRms [(0, 0), (0, 0)] < 0.5 * ((1 : ℚ) / 100 : ℝ) := by
    have h : maxRms cfgRms [(0, 0), (0, 0)] = 0 := by
      simp [maxRms, cfgRms, rmsOf, meanSq]
    rw [h]
    norm_num
  constructor
  · have := (claim_C4_rms_asymmetry cfgRms (.one [1, 1]) [(1, 1), (1, 1)] []).1
      (by simp [cfgRms])
      (by norm_num [preRms, elems, maxAbs, shapeCheck, fs_mismatch, cfgRms,
        makeStereo])
      (by exact_mod_cast hover)
    simpa using this
  · have := (claim_C4_rms_asymmetry cfgRms (.one [0, 0]) [(0, 0), (0, 0)] []).2
      (by simp [cfgRms])
      (by norm_num [preRms, elems, maxAbs, shapeCheck, fs_mismatch, cfgRms,
        makeStereo])
      (by exact_mod_cast hunder)
    simpa using this

/-- C2 (amended): when resampling is active (the rates differ by more than
the 0.5 Hz `np.allclose` tolerance and resampling is not suppressed) the
validator resamples an input of length `len` to exactly
`int(len * device_rate / native_rate)` samples — Python `int()` truncation,
not `round` — and reports the action; when the rates are within the
tolerance, or resampling is suppressed, the data passes through unresampled
and no resampling is reported. -/
theorem claim_C2_resample_count (c : AudioConfig) (xs : List ℚ)
    (hlen : ∀ ys n, (c.rsmp ys n).length = n) :
    arrLen (resampleCore c (.one xs)) =
      (pyInt ((xs.length : ℚ) * c.fs / c.stim_fs)).toNat ∧
    (∀ frames ws, preRms c (.one xs) = .ok (frames, ws) →
      ((fs_mismatch c && !c.suppress_resamp) = true →
        frames.length = resampCount c xs.length ∧ ws = [.resampling]) ∧
      ((fs_mismatch c && !c.suppress_resamp) = false →
        frames.length = xs.length ∧ ws = [])) := by
  constructor
  · simp [arrLen, resampleCore, hlen, resampCount]
  · intro frames ws hpre
    constructor <;> intro hcond <;>
      simp only [preRms, shapeCheck, hcond, if_true, if_false,
        Bool.false_eq_true, elems] at hpre <;>
      split_ifs at hpre with h1 h2 <;>
      simp only [Except.ok.injEq, Prod.mk.injEq] at hpre
    · obtain ⟨hf, hw⟩ := hpre
      subst hf hw
      simp [makeStereo, resampleCore, hlen, resampCount]
    · obtain ⟨hf, hw⟩ := hpre
      subst hf hw
      simp [makeStereo]

/-- C2 fails on the code in two ways.  With stimulus rate 2 and device rate
3, a 1-sample input is resampled to `int(1.5) = 1` sample where the claim's
formula `round(1.5)` demands 2.  And with rates 44100 vs 44100.3 — unequal,
resampling not suppressed — no resampling happens at all (the data passes
through bit-identically with no resampling report), because the code only
resamples when the rates differ by more than 0.5. -/
theorem claim_C2_counterexample :
    arrLen (resampleCore cfgMis (.one [0])) ≠
      (round ((1 : ℚ) * 3 / 2)).toNat ∧
    cfgNear.stim_fs ≠ cfgNear.fs ∧ cfgNear.suppress_resamp = false ∧
    validate_audio cfgNear (.one [1]) = (.ok [(0, 0), (1, 1)], []) := by
  refine ⟨?_, by norm_num [cfgNear], rfl, ?_⟩
  · have h1 : arrLen (resampleCore cfgMis (.one [0])) = 1 := by
      norm_num [arrLen, resampleCore, resampCount, pyInt, cfgMis, rsmpZeros,
        Int.tdiv]
    have h2 : (round ((1 : ℚ) * 3 / 2)).toNat = 2 := by
      norm_num [round_eq]
      rfl
    rw [h1, h2]
    decide
  · norm_num [validate_audio, preRms, elems, maxAbs, shapeCheck, fs_mismatch,
      cfgNear, makeStereo, rmsStage, abs_le]

theorem claim_C2_witness :
    arrLen (resampleCore cfgMis (.one [0, 0])) =
      (pyInt ((2 : ℚ) * 3 / 2)).toNat ∧
    List.length [((0 : ℚ), (0 : ℚ)), (0, 0), (0, 0)] = resampCount cfgMis 2 ∧
    [AudioWarning.resampling] = [AudioWarning.resampling] := by
  have hlen : ∀ ys n, (cfgMis.rsmp ys n).length = n := fun ys n => by
    simp [cfgMis, rsmpZeros]
  have hpre : preRms cfgMis (.one [0, 0]) =
      .ok ([(0, 0), (0, 0), (0, 0)], [.resampling]) := by
    norm_num [preRms, elems, maxAbs, shapeCheck, fs_mismatch, cfgMis,
      makeStereo, resampleCore, resampCount, pyInt, rsmpZeros, Int.tdiv]
    decide
  refine ⟨(claim_C2_resample_count cfgMis [0, 0] hlen).1, ?_⟩
  exact ((claim_C2_resample_count cfgMis [0, 0] hlen).2
    [(0, 0), (0, 0), (0, 0)] [.resampling] hpre).1
    (by norm_num [fs_mismatch, cfgMis])

/-- Zipping a list onto its own singletons duplicates each entry. -/
theorem zipWith_cons_self (xs : List ℚ) :
    List.zipWith (fun a l => a :: l) xs (xs.map fun a => [a]) =
      xs.map fun a => [a, a] := by
  induction xs with
  | nil => rfl
  | cons a t ih => simp [ih]

/-- Transposing two identical rows gives the column-duplicated array. -/
theorem transpose_pair (xs : List ℚ) :
    transpose [xs, xs] = xs.map fun x => [x, x] := by
  have h1 : transpose [xs, xs] =
      List.zipWith (fun a l => a :: l) xs (transpose [xs]) := rfl
  have h2 : transpose [xs] = xs.map fun a => [a] := rfl
  rw [h1, h2, zipWith_cons_self]

/-- Transposing the column-duplicated array recovers the two rows. -/
theorem transpose_dup {xs : List ℚ} (h : xs ≠ []) :
    transpose (xs.map fun x => [x, x]) = [xs, xs] := by
  induction xs with
  | nil => cases h rfl
  | cons a t ih =>
    cases t with
    | nil => rfl
    | cons b t' =>
      have ih' := ih (by simp)
      show List.zipWith (fun a l => a :: l) [a, a]
        (transpose ((b :: t').map fun x => [x, x])) = _
      rw [ih']
      rfl

theorem maxAbs_nonneg (xs : List ℚ) : 0 ≤ maxAbs xs := by
  induction xs with
  | nil => exact le_refl 0
  | cons a t ih => exact le_trans ih (le_max_right _ _)

/-- The `maxAbs` fold started from a nonnegative seed. -/
theorem foldr_maxAbs_init (xs : List ℚ) (b : ℚ) (hb : 0 ≤ b) :
    xs.foldr (fun x m => max |x| m) b = max (maxAbs xs) b := by
  induction xs with
  | nil => exact (max_eq_right hb).symm
  | cons a t ih =>
    rw [List.foldr_cons, ih, ← max_assoc]
    rfl

/-- Duplicating the data does not change its maximum magnitude. -/
theorem maxAbs_append_self (xs : List ℚ) : maxAbs (xs ++ xs) = maxAbs xs := by
  rw [maxAbs, List.foldr_append, ← maxAbs]
  rw [foldr_maxAbs_init xs (maxAbs xs) (maxAbs_nonneg xs), max_self]

/-- Broadcasting a column-duplicated 2-d array of any frame count other than
1 yields the duplicated frames. -/
theorem makeStereo_dupRows (L : List ℚ) (h1 : L.length ≠ 1) :
    makeStereo (.two (L.map fun v => [v, v])) = L.map fun v => (v, v) := by
  cases L with
  | nil => rfl
  | cons a t =>
    have hn : nrowsOf ((a :: t).map fun v => [v, v]) = t.length + 1 := by
      simp [nrowsOf]
    have hc : ncolsOf ((a :: t).map fun v => [v, v]) = 2 := by
      simp [ncolsOf]
    simp only [makeStereo, hn, hc]
    rw [if_neg]
    · simp [rowPair]
    · rintro (hh | hh)
      · exact h1 (by simpa using hh)
      · cases hh

/-- Column-wise resampling of a column-duplicated array resamples each of the
two identical channels like the underlying mono data. -/
theorem resampleCore_dupRows (c : AudioConfig) (x : ℚ) (t : List ℚ) :
    resampleCore c (.two ((x :: t).map fun v => [v, v])) =
      .two ((c.rsmp (x :: t) (resampCount c (x :: t).length)).map
        fun y => [y, y]) := by
  simp only [resampleCore, nrowsOf, List.length_map]
  rw [transpose_dup (by simp : x :: t ≠ [])]
  simp only [List.map_cons, List.map_nil]
  rw [transpose_pair]

/-- A mono buffer and its channel-duplicated stereo counterpart traverse the
pre-RMS pipeline to the same canonical frames, provided the frame count at
the broadcast step is not the degenerate value 1. -/
theorem preRms_mono_dup (c : AudioConfig) (xs : List ℚ)
    (hlen : ∀ ys n, (c.rsmp ys n).length = n)
    (hb : broadcastLen c xs.length ≠ 1) :
    preRms c (.one xs) = preRms c (.two [xs, xs]) := by
  cases hxs : xs with
  | nil => rfl
  | cons x t =>
    subst hxs
    have hel : elems (NPArray.two [x :: t, x :: t]) = (x :: t) ++ (x :: t) := by
      simp only [elems, List.flatten_cons, List.flatten_nil, List.append_nil]
    by_cases hm : 1 < maxAbs (x :: t)
    · have hm2 : 1 < maxAbs (elems (NPArray.two [x :: t, x :: t])) := by
        rw [hel, maxAbs_append_self]
        exact hm
      rw [preRms_oor c (a := NPArray.one (x :: t)) hm, preRms_oor c hm2]
    · have hm1 : ¬ 1 < maxAbs (elems (NPArray.one (x :: t))) := hm
      have hm2 : ¬ 1 < maxAbs (elems (NPArray.two [x :: t, x :: t])) := by
        rw [hel, maxAbs_append_self]
        exact hm
      have c1 : ¬ (elems (NPArray.one (x :: t))).length = 0 := by simp [elems]
      have c2 : ¬ (elems (NPArray.two [x :: t, x :: t])).length = 0 := by
        rw [hel]
        simp
      have hsc2 : shapeCheck (NPArray.two [x :: t, x :: t]) =
          .ok (.two ((x :: t).map fun v => [v, v])) := by
        have hmin : ¬ 2 < nrowsOf [x :: t, x :: t] ⊓
            ncolsOf [x :: t, x :: t] := by
          have h2 : nrowsOf [x :: t, x :: t] = 2 := rfl
          rw [h2]
          exact not_lt.mpr (Nat.min_le_left _ _)
        have hle : nrowsOf [x :: t, x :: t] ≤ 2 := le_refl 2
        simp only [shapeCheck]
        rw [if_neg hmin, if_pos hle, transpose_pair]
      have hL : preRms c (.one (x :: t)) =
          .ok (makeStereo (if (fs_mismatch c && !c.suppress_resamp) = true
              then resampleCore c (.one (x :: t)) else .one (x :: t)),
            if (fs_mismatch c && !c.suppress_resamp) = true
              then [.resampling] else []) := by
        simp only [preRms, if_neg c1, if_neg hm1]
        rfl
      have hR : preRms c (.two [x :: t, x :: t]) =
          .ok (makeStereo (if (fs_mismatch c && !c.suppress_resamp) = true
              then resampleCore c (.two ((x :: t).map fun v => [v, v]))
              else .two ((x :: t).map fun v => [v, v])),
            if (fs_mismatch c && !c.suppress_resamp) = true
              then [.resampling] else []) := by
        simp only [preRms, if_neg c2, if_neg hm2, hsc2]
      rw [hL, hR]
      cases hrs : (fs_mismatch c && !c.suppress_resamp) with
      | false =>
        have hb' : (x :: t).length ≠ 1 := by
          simpa [broadcastLen, hrs] using hb
        simp only [hrs, Bool.false_eq_true, if_false]
        rw [makeStereo_dupRows _ hb']
        simp [makeStereo]
      | true =>
        have hb' : resampCount c (x :: t).length ≠ 1 := by
          simpa [broadcastLen, hrs] using hb
        simp only [hrs, if_true]
        rw [resampleCore_dupRows]
        rw [makeStereo_dupRows _ (by rw [hlen]; exact hb')]
        simp [makeStereo, resampleCore]

/-- C8 (amended): a mono buffer and the two-channel buffer obtained by
duplicating it validate to numerically identical canonical output, provided
the frame count at the channel-broadcast step (after any resampling) is not
exactly 1 — at frame count 1 the stereo array's shape contains a 1 and the
source ravels it into two frames, diverging from the mono path. -/
theorem claim_C8_mono_stereo (c : AudioConfig) (xs : List ℚ)
    (hlen : ∀ ys n, (c.rsmp ys n).length = n)
    (hb : broadcastLen c xs.length ≠ 1) :
    validate_audio c (.one xs) = validate_audio c (.two [xs, xs]) := by
  unfold validate_audio
  rw [preRms_mono_dup c xs hlen hb]

/-- C8 fails as stated on the one-sample mono buffer `[1]`: the mono path
produces one canonical frame while the duplicated-stereo path ravels the
`(1, 2)`-shaped array and produces two frames. -/
theorem claim_C8_counterexample :
    validate_audio cfg0 (.one [1]) ≠
      validate_audio cfg0 (.two [[1], [1]]) := by
  have h1 : validate_audio cfg0 (.one [1]) = (.ok [(0, 0), (1, 1)], []) := by
    norm_num [validate_audio, preRms, elems, maxAbs, shapeCheck, fs_mismatch,
      cfg0, makeStereo, rmsStage]
  have h2 : validate_audio cfg0 (.two [[1], [1]]) =
      (.ok [(0, 0), (1, 1), (1, 1)], []) := by
    norm_num [validate_audio, preRms, elems, maxAbs, shapeCheck, fs_mismatch,
      cfg0, makeStereo, rmsStage, nrowsOf, ncolsOf, transpose, rowPair]
  rw [h1, h2]
  intro h
  simp at h

theorem claim_C8_witness :
    validate_audio cfg0 (.one [1, 1]) =
      validate_audio cfg0 (.two [[1, 1], [1, 1]]) :=
  claim_C8_mono_stereo cfg0 [1, 1] (fun ys n => by simp [cfg0, rsmpZeros])
    (by norm_num [broadcastLen, fs_mismatch, cfg0])

end Expyfun
